import Mathlib

/-!
# Verification of the xMath 4x4 matrix / quaternion core

Shallow embedding over `ℝ` of the xMath library's `Vec3`/`Vec4`/`Quat`/`Mat4`
types, the legacy column-major `Matrix` type, and the `Transforms`
compose/decompose helpers, translated from `src/xMath/src/*.cpp` and
`src/xMath/includes/*.h`.  `float` arithmetic is modelled by real arithmetic;
a division whose IEEE result would be non-finite (division by a zero
denominator, producing `inf` or `NaN`) is modelled by an `Option` that is
`none` in that case.
-/

namespace xMath

/-- 3-component vector, from `includes/vec3.h` (`TVector3<float>`). -/
structure Vec3 where
  x : ℝ
  y : ℝ
  z : ℝ

/-- 4-component vector, from `includes/vec4.h` (`TVector4<float>`).
The default constructor `TVector4()` zero-initialises all components. -/
structure Vec4 where
  x : ℝ
  y : ℝ
  z : ℝ
  w : ℝ

/-- `TVector4()` — the zero-initialising default constructor (vec4.h line 47). -/
def Vec4.default : Vec4 := ⟨0, 0, 0, 0⟩

/-- `TVector4(const TVector3&, T w)` — promotion of a `Vec3` (vec4.h line 50). -/
def Vec4.ofVec3 (v : Vec3) (w : ℝ) : Vec4 := ⟨v.x, v.y, v.z, w⟩

/-- Unary minus on `Vec3` (vec3.h line 74). -/
def Vec3.neg (v : Vec3) : Vec3 := ⟨-v.x, -v.y, -v.z⟩

/-- `operator*(T s)` on `Vec3` (vec3.h line 66). -/
def Vec3.smul (v : Vec3) (s : ℝ) : Vec3 := ⟨v.x * s, v.y * s, v.z * s⟩

/-- `Dot(const Vec3&, const Vec3&)` from `math_utils.cpp` line 170. -/
def dotV (a b : Vec3) : ℝ := a.x * b.x + a.y * b.y + a.z * b.z

/-- `Cross(const Vec3&, const Vec3&)` from `math_utils.cpp` line 186. -/
def crossV (a b : Vec3) : Vec3 :=
  ⟨a.y * b.z - a.z * b.y, a.z * b.x - a.x * b.z, a.x * b.y - a.y * b.x⟩

/-- `Normalize(const Vec3&)` from `math_utils.cpp` line 149: guarded against
zero-length input (`len2 <= 0` returns the zero vector). -/
noncomputable def normalizeV (v : Vec3) : Vec3 :=
  let len2 := v.x * v.x + v.y * v.y + v.z * v.z
  if len2 ≤ 0 then ⟨0, 0, 0⟩
  else
    let invLen := 1 / Real.sqrt len2
    ⟨v.x * invLen, v.y * invLen, v.z * invLen⟩

/-- Modelled from the spec: `epsilon<float>()` from the missing header
`includes/epsilon.h` — the machine epsilon of single-precision floats,
`2^(-23)`.  The spec's epsilon-boundary scenario (§8) pins
`epsilonEqual(1+eps/2, 1, eps)` true and `epsilonEqual(1+2·eps, 1, eps)`
false. -/
noncomputable def flEpsilon : ℝ := (2: ℝ) ^ (-23 : ℤ)

/-- Modelled from the spec: `epsilonEqual(x, y, eps)` from the missing header
`includes/epsilon.h` — approximate equality, `|x - y| < eps` (the GLM
convention, consistent with the spec's §8 epsilon-boundary scenario). -/
noncomputable def epsilonEqual (a b eps : ℝ) : Prop := |a - b| < eps

noncomputable instance (a b eps : ℝ) : Decidable (epsilonEqual a b eps) := by
  unfold epsilonEqual; infer_instance

/-- `operator/(T s)` on `Vec3` (vec3.h line 67). -/
noncomputable def Vec3.divs (v : Vec3) (s : ℝ) : Vec3 := ⟨v.x / s, v.y / s, v.z / s⟩

/-- `Scale(const Vec3& vector, float desiredLength)` from `scale.cpp` line 45:
rescales `vector` to the desired length (`vector * desiredLength / mag`),
returning zero when the magnitude is within epsilon of zero. -/
noncomputable def scaleToLength (v : Vec3) (desiredLength : ℝ) : Vec3 :=
  let mag := Real.sqrt (v.x * v.x + v.y * v.y + v.z * v.z)
  if epsilonEqual mag 0 flEpsilon then ⟨0, 0, 0⟩
  else Vec3.divs (Vec3.smul v desiredLength) mag

/-- Quaternion, from `includes/quat.h` / `quat.cpp`: stored as the four floats
`(x, y, z, w)`, the vector part `(x, y, z)` and the scalar part `w`. -/
structure Quat where
  x : ℝ
  y : ℝ
  z : ℝ
  w : ℝ

/-- The constructor `Quat(float w, float x, float y, float z)` (quat.cpp
line 85): parameter order `(w,x,y,z)`, storage order `(x,y,z,w)`. -/
def Quat.ofWXYZ (w x y z : ℝ) : Quat := ⟨x, y, z, w⟩

/-- The default constructor `Quat()` (quat.cpp line 62) and `Quat::Identity()`:
the identity quaternion `x=0, y=0, z=0, w=1`. -/
def Quat.identity : Quat := ⟨0, 0, 0, 1⟩

/-- `Quat::GetSqrMagnitude()` (quat.cpp line 1337). -/
def Quat.sqrMagnitude (q : Quat) : ℝ := q.x * q.x + q.y * q.y + q.z * q.z + q.w * q.w

/-- `Quat::GetNormalized()` (quat.cpp lines 433-442): returns the identity
quaternion when the squared magnitude is not positive (explicit guard),
otherwise divides every component by the magnitude. -/
noncomputable def Quat.getNormalized (q : Quat) : Quat :=
  let mag2 := q.w * q.w + q.x * q.x + q.y * q.y + q.z * q.z
  if mag2 ≤ 0 then Quat.identity
  else
    let mag := Real.sqrt mag2
    if mag ≤ 0 then Quat.identity
    else Quat.ofWXYZ (q.w / mag) (q.x / mag) (q.y / mag) (q.z / mag)

/-- `Quat::Normalize()` (quat.cpp lines 479-487), the in-place variant: it has
no zero-magnitude guard and divides each of the four components by
`sqrt(w^2+x^2+y^2+z^2)` unconditionally.  A division by a zero magnitude
produces IEEE `NaN` in every component (`0/0`); that non-finite outcome is
modelled by `none`. -/
noncomputable def Quat.normalizeInPlace (q : Quat) : Option Quat :=
  let mag := Real.sqrt (q.w * q.w + q.x * q.x + q.y * q.y + q.z * q.z)
  if mag = 0 then none
  else some ⟨q.x / mag, q.y / mag, q.z / mag, q.w / mag⟩

/-- Row-major 4x4 matrix, from `includes/mat4.h`: `Vec4 rows[4]`, `M[r][c]` is
row `r`, column `c`. -/
structure Mat4 where
  r0 : Vec4
  r1 : Vec4
  r2 : Vec4
  r3 : Vec4

/-- Row access `M[i]` (mat4.h `operator[]`). -/
def Mat4.row (m : Mat4) : Fin 4 → Vec4
  | 0 => m.r0
  | 1 => m.r1
  | 2 => m.r2
  | 3 => m.r3

/-- The default constructor `Mat4()` (mat4.cpp lines 35-40): the all-zero
matrix; `Mat4::Zero()` returns the same. -/
def Mat4.zeroM : Mat4 :=
  ⟨⟨0, 0, 0, 0⟩, ⟨0, 0, 0, 0⟩, ⟨0, 0, 0, 0⟩, ⟨0, 0, 0, 0⟩⟩

/-- The diagonal constructor `Mat4(float diagonal)` (mat4.cpp lines 42-47);
`Mat4::Identity()` is `Mat4(1.0f)`. -/
def Mat4.diagonal (d : ℝ) : Mat4 :=
  ⟨⟨d, 0, 0, 0⟩, ⟨0, d, 0, 0⟩, ⟨0, 0, d, 0⟩, ⟨0, 0, 0, d⟩⟩

/-- `Mat4::Identity()` (mat4.cpp lines 132-135). -/
def Mat4.identityM : Mat4 := Mat4.diagonal 1

/-- THE COPY CONSTRUCTOR `Mat4::Mat4(const Mat4& copy)` (mat4.cpp lines
80-82): its body is EMPTY, so the member array `Vec4 rows[4]` is
default-constructed — each row is `TVector4()` = `(0,0,0,0)` (vec4.h line 47).
The constructed "copy" is therefore the all-zero matrix, whatever the
argument. -/
def Mat4.copyCtor (_copy : Mat4) : Mat4 :=
  ⟨Vec4.default, Vec4.default, Vec4.default, Vec4.default⟩

/-- `Mat4::Translate(const Vec3&)` (mat4.cpp lines 89-96): translation in the
fourth column. -/
def Mat4.translate (t : Vec3) : Mat4 :=
  ⟨⟨1, 0, 0, t.x⟩, ⟨0, 1, 0, t.y⟩, ⟨0, 0, 1, t.z⟩, ⟨0, 0, 0, 1⟩⟩

/-- `Mat4::Scale(const Vec3&)` (mat4.cpp lines 117-125). -/
def Mat4.scaleM (s : Vec3) : Mat4 :=
  ⟨⟨s.x, 0, 0, 0⟩, ⟨0, s.y, 0, 0⟩, ⟨0, 0, s.z, 0⟩, ⟨0, 0, 0, 1⟩⟩

/-- `Mat4::Multiply(const Mat4&, const Mat4&)` (matrix.cpp lines 365-384):
`result[i][j] = Σ_k lhs[i][k] * rhs[k][j]`; `operator*` delegates to it. -/
def Mat4.mul (l r : Mat4) : Mat4 :=
  ⟨⟨l.r0.x * r.r0.x + l.r0.y * r.r1.x + l.r0.z * r.r2.x + l.r0.w * r.r3.x,
    l.r0.x * r.r0.y + l.r0.y * r.r1.y + l.r0.z * r.r2.y + l.r0.w * r.r3.y,
    l.r0.x * r.r0.z + l.r0.y * r.r1.z + l.r0.z * r.r2.z + l.r0.w * r.r3.z,
    l.r0.x * r.r0.w + l.r0.y * r.r1.w + l.r0.z * r.r2.w + l.r0.w * r.r3.w⟩,
   ⟨l.r1.x * r.r0.x + l.r1.y * r.r1.x + l.r1.z * r.r2.x + l.r1.w * r.r3.x,
    l.r1.x * r.r0.y + l.r1.y * r.r1.y + l.r1.z * r.r2.y + l.r1.w * r.r3.y,
    l.r1.x * r.r0.z + l.r1.y * r.r1.z + l.r1.z * r.r2.z + l.r1.w * r.r3.z,
    l.r1.x * r.r0.w + l.r1.y * r.r1.w + l.r1.z * r.r2.w + l.r1.w * r.r3.w⟩,
   ⟨l.r2.x * r.r0.x + l.r2.y * r.r1.x + l.r2.z * r.r2.x + l.r2.w * r.r3.x,
    l.r2.x * r.r0.y + l.r2.y * r.r1.y + l.r2.z * r.r2.y + l.r2.w * r.r3.y,
    l.r2.x * r.r0.z + l.r2.y * r.r1.z + l.r2.z * r.r2.z + l.r2.w * r.r3.z,
    l.r2.x * r.r0.w + l.r2.y * r.r1.w + l.r2.z * r.r2.w + l.r2.w * r.r3.w⟩,
   ⟨l.r3.x * r.r0.x + l.r3.y * r.r1.x + l.r3.z * r.r2.x + l.r3.w * r.r3.x,
    l.r3.x * r.r0.y + l.r3.y * r.r1.y + l.r3.z * r.r2.y + l.r3.w * r.r3.y,
    l.r3.x * r.r0.z + l.r3.y * r.r1.z + l.r3.z * r.r2.z + l.r3.w * r.r3.z,
    l.r3.x * r.r0.w + l.r3.y * r.r1.w + l.r3.z * r.r2.w + l.r3.w * r.r3.w⟩⟩

/-- `Mat4::Multiply(const Mat4&, const Vec4&)` (matrix.cpp lines 410-427):
`result[i] = Σ_j lhs[i][j] * rhs[j]`. -/
def Mat4.mulVec4 (l : Mat4) (v : Vec4) : Vec4 :=
  ⟨l.r0.x * v.x + l.r0.y * v.y + l.r0.z * v.z + l.r0.w * v.w,
   l.r1.x * v.x + l.r1.y * v.y + l.r1.z * v.z + l.r1.w * v.w,
   l.r2.x * v.x + l.r2.y * v.y + l.r2.z * v.z + l.r2.w * v.w,
   l.r3.x * v.x + l.r3.y * v.y + l.r3.z * v.z + l.r3.w * v.w⟩

/-- `Mat4::operator*(const Vec3&)` (mat4.cpp lines 176-179): promotes the
argument to `Vec4(rhs, 1.0f)` and returns the raw homogeneous product —
no perspective division. -/
def Mat4.mulVec3 (l : Mat4) (v : Vec3) : Vec4 :=
  Mat4.mulVec4 l (Vec4.ofVec3 v 1)

/-- `Quat::ToMatrix(const Quat&)` (quat.cpp lines 1143-1177): starts from the
identity matrix and overwrites the upper-left 3x3 block using the
normalisation factor `invs = 1/(x^2+y^2+z^2+w^2)`. -/
noncomputable def Quat.toMatrix (q : Quat) : Mat4 :=
  let sqw := q.w * q.w
  let sqx := q.x * q.x
  let sqy := q.y * q.y
  let sqz := q.z * q.z
  let invs := 1 / (sqx + sqy + sqz + sqw)
  ⟨⟨(sqx - sqy - sqz + sqw) * invs, 2 * (q.x * q.y - q.z * q.w) * invs,
    2 * (q.x * q.z + q.y * q.w) * invs, 0⟩,
   ⟨2 * (q.x * q.y + q.z * q.w) * invs, (-sqx + sqy - sqz + sqw) * invs,
    2 * (q.y * q.z - q.x * q.w) * invs, 0⟩,
   ⟨2 * (q.x * q.z - q.y * q.w) * invs, 2 * (q.y * q.z + q.x * q.w) * invs,
    (-sqx - sqy + sqz + sqw) * invs, 0⟩,
   ⟨0, 0, 0, 1⟩⟩

/-- `Transforms::Compose(translation, rotation, scale)` (transforms.cpp lines
164-171): `T * R * S`. -/
noncomputable def Transforms.compose (translation : Vec3) (rotation : Quat) (scale : Vec3) : Mat4 :=
  Mat4.mul (Mat4.mul (Mat4.translate translation) (Quat.toMatrix rotation)) (Mat4.scaleM scale)

/-- `Transforms::Decompose(transform, translation, rotation, scale)`
(transforms.cpp lines 54-141), modelled as `Option (T, R, S)` with `none` for
the `return false` paths.  The body starts with `Mat4 LocalMatrix(transform)`,
which invokes the (empty-bodied) `Mat4` copy constructor.  The debug-only
determinant-sign check (`#ifdef SEDX_DEBUG`) is compiled out, matching release
builds. -/
noncomputable def Transforms.decompose (transform : Mat4) : Option (Vec3 × Quat × Vec3) :=
  let lm := Mat4.copyCtor transform
  if epsilonEqual lm.r3.w 0 flEpsilon then none
  else if ¬ epsilonEqual lm.r3.w 1 0.00001 then none
  else if ¬ (epsilonEqual lm.r0.w 0 flEpsilon ∧ epsilonEqual lm.r1.w 0 flEpsilon ∧
             epsilonEqual lm.r2.w 0 flEpsilon) then none
  else
    let translation : Vec3 := ⟨lm.r3.x, lm.r3.y, lm.r3.z⟩
    let row0 : Vec3 := ⟨lm.r0.x, lm.r0.y, lm.r0.z⟩
    let row1 : Vec3 := ⟨lm.r1.x, lm.r1.y, lm.r1.z⟩
    let row2 : Vec3 := ⟨lm.r2.x, lm.r2.y, lm.r2.z⟩
    let sx := Real.sqrt (row0.x * row0.x + row0.y * row0.y + row0.z * row0.z)
    let n0 := scaleToLength row0 1
    let sy := Real.sqrt (row1.x * row1.x + row1.y * row1.y + row1.z * row1.z)
    let n1 := scaleToLength row1 1
    let sz := Real.sqrt (row2.x * row2.x + row2.y * row2.y + row2.z * row2.z)
    let n2 := scaleToLength row2 1
    let scale : Vec3 := ⟨sx, sy, sz⟩
    let trace := n0.x + n1.y + n2.z
    let rotation :=
      if trace > 0 then
        let root := Real.sqrt (trace + 1)
        let qw := 0.5 * root
        let r := 0.5 / root
        Quat.ofWXYZ qw (r * (n1.z - n2.y)) (r * (n2.x - n0.z)) (r * (n0.y - n1.x))
      else
        -- i = largest of the diagonal entries n0.x, n1.y, n2.z; j = Next[i], k = Next[j]
        if n2.z > (if n1.y > n0.x then n1.y else n0.x) then
          -- i = 2, j = 0, k = 1
          let root := Real.sqrt (n2.z - n0.x - n1.y + 1)
          let r := 0.5 / root
          Quat.ofWXYZ (r * (n0.y - n1.x)) (r * (n2.x + n0.z)) (r * (n2.y + n1.z)) (0.5 * root)
        else if n1.y > n0.x then
          -- i = 1, j = 2, k = 0
          let root := Real.sqrt (n1.y - n2.z - n0.x + 1)
          let r := 0.5 / root
          Quat.ofWXYZ (r * (n2.x - n0.z)) (r * (n1.x + n0.y)) (0.5 * root) (r * (n1.z + n2.y))
        else
          -- i = 0, j = 1, k = 2
          let root := Real.sqrt (n0.x - n1.y - n2.z + 1)
          let r := 0.5 / root
          Quat.ofWXYZ (r * (n1.z - n2.y)) (0.5 * root) (r * (n0.y + n1.x)) (r * (n0.z + n2.x))
    some (translation, rotation, scale)

/-- The determinant expression of `Mat4::GetInverse(const Mat4&)` (matrix.cpp
lines 622-669): `det = n11*t11 + n21*t12 + n31*t13 + n41*t14`, where
`n_rc = matrix[c-1][r-1]` and `t11..t14` are the six-product cofactor terms of
the source. -/
def Mat4.invDet (m : Mat4) : ℝ :=
  let n11 := m.r0.x; let n12 := m.r1.x; let n13 := m.r2.x; let n14 := m.r3.x
  let n21 := m.r0.y; let n22 := m.r1.y; let n23 := m.r2.y; let n24 := m.r3.y
  let n31 := m.r0.z; let n32 := m.r1.z; let n33 := m.r2.z; let n34 := m.r3.z
  let n41 := m.r0.w; let n42 := m.r1.w; let n43 := m.r2.w; let n44 := m.r3.w
  let t11 := n23 * n34 * n42 - n24 * n33 * n42 + n24 * n32 * n43 - n22 * n34 * n43 - n23 * n32 * n44 + n22 * n33 * n44
  let t12 := n14 * n33 * n42 - n13 * n34 * n42 - n14 * n32 * n43 + n12 * n34 * n43 + n13 * n32 * n44 - n12 * n33 * n44
  let t13 := n13 * n24 * n42 - n14 * n23 * n42 + n14 * n22 * n43 - n12 * n24 * n43 - n13 * n22 * n44 + n12 * n23 * n44
  let t14 := n14 * n23 * n32 - n13 * n24 * n32 - n14 * n22 * n33 + n12 * n24 * n33 + n13 * n22 * n34 - n12 * n23 * n34
  n11 * t11 + n21 * t12 + n31 * t13 + n41 * t14

/-- `Mat4::GetInverse(const Mat4&)` (matrix.cpp lines 622-669): the closed-form
4x4 inverse.  The source performs no singularity check: it computes
`idet = 1.0f / det` and multiplies every cofactor entry by it.  When
`det = 0`, `idet` is IEEE `inf` and every one of the 16 product entries is
non-finite (`inf` or `NaN`); that outcome is modelled by `none`. -/
noncomputable def Mat4.getInverse (m : Mat4) : Option Mat4 :=
  let n11 := m.r0.x; let n12 := m.r1.x; let n13 := m.r2.x; let n14 := m.r3.x
  let n21 := m.r0.y; let n22 := m.r1.y; let n23 := m.r2.y; let n24 := m.r3.y
  let n31 := m.r0.z; let n32 := m.r1.z; let n33 := m.r2.z; let n34 := m.r3.z
  let n41 := m.r0.w; let n42 := m.r1.w; let n43 := m.r2.w; let n44 := m.r3.w
  let t11 := n23 * n34 * n42 - n24 * n33 * n42 + n24 * n32 * n43 - n22 * n34 * n43 - n23 * n32 * n44 + n22 * n33 * n44
  let t12 := n14 * n33 * n42 - n13 * n34 * n42 - n14 * n32 * n43 + n12 * n34 * n43 + n13 * n32 * n44 - n12 * n33 * n44
  let t13 := n13 * n24 * n42 - n14 * n23 * n42 + n14 * n22 * n43 - n12 * n24 * n43 - n13 * n22 * n44 + n12 * n23 * n44
  let t14 := n14 * n23 * n32 - n13 * n24 * n32 - n14 * n22 * n33 + n12 * n24 * n33 + n13 * n22 * n34 - n12 * n23 * n34
  if Mat4.invDet m = 0 then none
  else
    let idet := 1 / Mat4.invDet m
    some
      ⟨⟨t11 * idet,
        (n24 * n33 * n41 - n23 * n34 * n41 - n24 * n31 * n43 + n21 * n34 * n43 + n23 * n31 * n44 - n21 * n33 * n44) * idet,
        (n22 * n34 * n41 - n24 * n32 * n41 + n24 * n31 * n42 - n21 * n34 * n42 - n22 * n31 * n44 + n21 * n32 * n44) * idet,
        (n23 * n32 * n41 - n22 * n33 * n41 - n23 * n31 * n42 + n21 * n33 * n42 + n22 * n31 * n43 - n21 * n32 * n43) * idet⟩,
       ⟨t12 * idet,
        (n13 * n34 * n41 - n14 * n33 * n41 + n14 * n31 * n43 - n11 * n34 * n43 - n13 * n31 * n44 + n11 * n33 * n44) * idet,
        (n14 * n32 * n41 - n12 * n34 * n41 - n14 * n31 * n42 + n11 * n34 * n42 + n12 * n31 * n44 - n11 * n32 * n44) * idet,
        (n12 * n33 * n41 - n13 * n32 * n41 + n13 * n31 * n42 - n11 * n33 * n42 - n12 * n31 * n43 + n11 * n32 * n43) * idet⟩,
       ⟨t13 * idet,
        (n14 * n23 * n41 - n13 * n24 * n41 - n14 * n21 * n43 + n11 * n24 * n43 + n13 * n21 * n44 - n11 * n23 * n44) * idet,
        (n12 * n24 * n41 - n14 * n22 * n41 + n14 * n21 * n42 - n11 * n24 * n42 - n12 * n21 * n44 + n11 * n22 * n44) * idet,
        (n13 * n22 * n41 - n12 * n23 * n41 - n13 * n21 * n42 + n11 * n23 * n42 + n12 * n21 * n43 - n11 * n22 * n43) * idet⟩,
       ⟨t14 * idet,
        (n13 * n24 * n31 - n14 * n23 * n31 + n14 * n21 * n33 - n11 * n24 * n33 - n13 * n21 * n34 + n11 * n23 * n34) * idet,
        (n14 * n22 * n31 - n12 * n24 * n31 - n14 * n21 * n32 + n11 * n24 * n32 + n12 * n21 * n34 - n11 * n22 * n34) * idet,
        (n12 * n23 * n31 - n13 * n22 * n31 + n13 * n21 * n32 - n11 * n23 * n32 - n12 * n21 * n33 + n11 * n22 * n33) * idet⟩⟩

/-- `ToRadians(float degrees)` (math_utils.h line 47): `degrees * DEG_TO_RAD`
with `DEG_TO_RAD = PI / 180` (constants.h line 41). -/
noncomputable def toRadians (degrees : ℝ) : ℝ := degrees * (Real.pi / 180)

/-- `Mat4::PerspectiveProjection(aspect, fieldOfView, n, f)` (matrix.cpp lines
73-83): Y flipped negative, clip-space bottom row `(0,0,1,0)`. -/
noncomputable def Mat4.perspectiveProjection (aspect fieldOfView n f : ℝ) : Mat4 :=
  let tanHalfFOV := Real.tan (toRadians (fieldOfView / 2))
  ⟨⟨1 / (aspect * tanHalfFOV), 0, 0, 0⟩,
   ⟨0, -1 / tanHalfFOV, 0, 0⟩,
   ⟨0, 0, f / (f - n), -f * n / (f - n)⟩,
   ⟨0, 0, 1, 0⟩⟩

/-- `std::clamp(v, lo, hi)`: `v < lo ? lo : (hi < v ? hi : v)`. -/
noncomputable def clampR (v lo hi : ℝ) : ℝ :=
  if v < lo then lo else if hi < v then hi else v

/-- C's `atan2(y, x)`: the angle of the point `(x, y)`, in `(-π, π]`. -/
noncomputable def atan2 (y x : ℝ) : ℝ :=
  if 0 < x then Real.arctan (y / x)
  else if x < 0 then
    (if 0 ≤ y then Real.arctan (y / x) + Real.pi else Real.arctan (y / x) - Real.pi)
  else
    (if 0 < y then Real.pi / 2 else if y < 0 then -(Real.pi / 2) else 0)

/-- `Quat::Slerp(from, to, t)` (quat.cpp lines 794-822): normalises both
inputs, negates the second operand (and the dot) when the dot product is
negative, clamps the dot to `[-1,1]`, then either returns the renormalised
linear interpolation (when `1 - dot < 1e-3`) or applies the sine-ratio
formula. -/
noncomputable def Quat.slerp (qfrom qto : Quat) (t : ℝ) : Quat :=
  let a := qfrom.getNormalized
  let b0 := qto.getNormalized
  let dot0 := a.w * b0.w + a.x * b0.x + a.y * b0.y + a.z * b0.z
  let b : Quat := if dot0 < 0 then ⟨-b0.x, -b0.y, -b0.z, -b0.w⟩ else b0
  let dot1 := if dot0 < 0 then -dot0 else dot0
  let dot := clampR dot1 (-1) 1
  if 1 - dot < 1e-3 then
    (Quat.ofWXYZ (a.w + t * (b.w - a.w)) (a.x + t * (b.x - a.x))
      (a.y + t * (b.y - a.y)) (a.z + t * (b.z - a.z))).getNormalized
  else
    let theta0 := Real.arccos dot
    let theta := theta0 * t
    let sinTheta0 := Real.sin theta0
    let sinTheta := Real.sin theta
    let s0 := Real.cos theta - dot * sinTheta / sinTheta0
    let s1 := sinTheta / sinTheta0
    Quat.ofWXYZ (s0 * a.w + s1 * b.w) (s0 * a.x + s1 * b.x)
      (s0 * a.y + s1 * b.y) (s0 * a.z + s1 * b.z)

/-- `Quat::ToEulerRadians()` (quat.cpp lines 1281-1312): the result vector is
`(pitch, yaw, roll)` = `(euler.x, euler.y, euler.z)`.  Gimbal lock at the
poles is detected via `test = x*y + z*w` against `±0.499 * unit`. -/
noncomputable def Quat.toEulerRadians (q : Quat) : Vec3 :=
  let sqw := q.w * q.w
  let sqx := q.x * q.x
  let sqy := q.y * q.y
  let sqz := q.z * q.z
  let unit := sqx + sqy + sqz + sqw
  let test := q.x * q.y + q.z * q.w
  if test > 0.499 * unit then
    ⟨Real.pi / 2, 2 * atan2 q.x q.w, 0⟩
  else if test < -0.499 * unit then
    ⟨-(Real.pi / 2), -2 * atan2 q.x q.w, 0⟩
  else
    ⟨Real.arcsin (-2 * (q.x * q.z - q.y * q.w) / unit),
     atan2 (2 * q.y * q.w + 2 * q.x * q.z) (sqw - sqx - sqy + sqz),
     atan2 (2 * q.x * q.w + 2 * q.y * q.z) (sqw + sqx - sqy - sqz)⟩

/-- `Quat::AngleAxis(float angle, const Vec4& axis)` (quat.cpp lines 928-944):
angle in degrees (converted with the literal factor `0.0174532925f`), axis
normalised when its length is positive. -/
noncomputable def Quat.angleAxis (angle : ℝ) (axis : Vec4) : Quat :=
  let len := Real.sqrt (axis.x * axis.x + axis.y * axis.y + axis.z * axis.z)
  let vn : Vec4 :=
    if len > 0 then
      let inv := 1 / len
      ⟨axis.x * inv, axis.y * inv, axis.z * inv, axis.w⟩
    else axis
  let a := angle * 0.0174532925 * 0.5
  Quat.ofWXYZ (Real.cos a) (vn.x * Real.sin a) (vn.y * Real.sin a) (vn.z * Real.sin a)

/-- `Quat::AngleRadians(const Quat&)` (quat.cpp lines 1205-1212): clamps `w`
to `[-1,1]`, returns `2 * acos(w)`. -/
noncomputable def Quat.angleRadians (q : Quat) : ℝ :=
  2 * Real.arccos (max (-1) (min 1 q.w))

/-- `Quat::FromToRotation(const Vec3& from, const Vec3& to)` (quat.cpp lines
623-654): normalises both vectors; `dot >= 1` gives the identity, `dot <= -1`
gives a 180° rotation about an axis orthogonal to `from` (cross with `(1,0,0)`,
falling back to `(0,1,0)` when near zero), otherwise the half-way-vector
construction. -/
noncomputable def Quat.fromToRotation (vfrom vto : Vec3) : Quat :=
  let unitFrom := normalizeV vfrom
  let unitTo := normalizeV vto
  let dot := dotV unitFrom unitTo
  if dot ≥ 1 then Quat.identity
  else if dot ≤ -1 then
    let axis0 := crossV unitFrom ⟨1, 0, 0⟩
    let axis := if dotV axis0 axis0 < 1e-6 then crossV unitFrom ⟨0, 1, 0⟩ else axis0
    let normAxis := normalizeV axis
    Quat.angleAxis 180 ⟨normAxis.x, normAxis.y, normAxis.z, 0⟩
  else
    let sFrom := dotV unitFrom unitFrom
    let sTo := dotV unitTo unitTo
    let s := Real.sqrt (sFrom * sTo) + dotV unitFrom unitTo
    let v := crossV unitFrom unitTo
    (Quat.mk v.x v.y v.z s).getNormalized

/-- The legacy column-major 4x4 `Matrix` (includes/matrix.h, matrix.cpp): 16
floats named `m00..m33`; translation lives in `(m30, m31, m32)`. -/
structure Matrix where
  m00 : ℝ
  m01 : ℝ
  m02 : ℝ
  m03 : ℝ
  m10 : ℝ
  m11 : ℝ
  m12 : ℝ
  m13 : ℝ
  m20 : ℝ
  m21 : ℝ
  m22 : ℝ
  m23 : ℝ
  m30 : ℝ
  m31 : ℝ
  m32 : ℝ
  m33 : ℝ

/-- `sign(T x)` (math_utils.h line 109): `(0 < x) - (x < 0)`, valued in
`{-1, 0, 1}`. -/
noncomputable def signR (x : ℝ) : ℤ :=
  (if 0 < x then 1 else 0) - (if x < 0 then 1 else 0)

/-- `Matrix::operator*(const Vec3&)` (matrix.cpp lines 1032-1048): computes
the full homogeneous product and performs the perspective division — each of
`x, y, z` is divided by the resulting `w` whenever `w != 1`. -/
noncomputable def Matrix.mulVec3 (m : Matrix) (v : Vec3) : Vec3 :=
  let x := v.x * m.m00 + v.y * m.m10 + v.z * m.m20 + m.m30
  let y := v.x * m.m01 + v.y * m.m11 + v.z * m.m21 + m.m31
  let z := v.x * m.m02 + v.y * m.m12 + v.z * m.m22 + m.m32
  let w := v.x * m.m03 + v.y * m.m13 + v.z * m.m23 + m.m33
  if w ≠ 1 then ⟨x / w, y / w, z / w⟩ else ⟨x, y, z⟩

/-- `Matrix::operator*(const Vec4&)` (matrix.cpp lines 1051-1057): the raw
homogeneous product. -/
def Matrix.mulVec4 (m : Matrix) (v : Vec4) : Vec4 :=
  ⟨v.x * m.m00 + v.y * m.m10 + v.z * m.m20 + v.w * m.m30,
   v.x * m.m01 + v.y * m.m11 + v.z * m.m21 + v.w * m.m31,
   v.x * m.m02 + v.y * m.m12 + v.z * m.m22 + v.w * m.m32,
   v.x * m.m03 + v.y * m.m13 + v.z * m.m23 + v.w * m.m33⟩

/-- `Matrix::GetScale()` (matrix.cpp lines 832-840): per-axis scale magnitude
with the product-sign heuristic `sign(m_i0 * m_i1 * m_i2 * m_i3)`. -/
noncomputable def Matrix.getScale (m : Matrix) : Vec3 :=
  let xs : ℝ := if signR (m.m00 * m.m01 * m.m02 * m.m03) < 0 then -1 else 1
  let ys : ℝ := if signR (m.m10 * m.m11 * m.m12 * m.m13) < 0 then -1 else 1
  let zs : ℝ := if signR (m.m20 * m.m21 * m.m22 * m.m23) < 0 then -1 else 1
  ⟨xs * Real.sqrt (m.m00 * m.m00 + m.m01 * m.m01 + m.m02 * m.m02),
   ys * Real.sqrt (m.m10 * m.m10 + m.m11 * m.m11 + m.m12 * m.m12),
   zs * Real.sqrt (m.m20 * m.m20 + m.m21 * m.m21 + m.m22 * m.m22)⟩

/-- `Matrix::RotationMatrixToQuaternion(const Matrix&)` (matrix.cpp lines
778-830): the branchy four-case algorithm selecting the numerically largest
diagonal term. -/
noncomputable def Matrix.rotationMatrixToQuaternion (mRot : Matrix) : Quat :=
  let scale := mRot.m00 + mRot.m11 + mRot.m22
  if scale > 0 then
    let s := Real.sqrt (scale + 1)
    let r := 0.5 / s
    ⟨(mRot.m12 - mRot.m21) * r, (mRot.m20 - mRot.m02) * r,
     (mRot.m01 - mRot.m10) * r, s * 0.5⟩
  else if mRot.m00 ≥ mRot.m11 ∧ mRot.m00 ≥ mRot.m22 then
    let s := Real.sqrt (1 + mRot.m00 - mRot.m11 - mRot.m22)
    let half := 0.5 / s
    ⟨0.5 * s, (mRot.m01 + mRot.m10) * half, (mRot.m02 + mRot.m20) * half,
     (mRot.m12 - mRot.m21) * half⟩
  else if mRot.m11 > mRot.m22 then
    let s := Real.sqrt (1 + mRot.m11 - mRot.m00 - mRot.m22)
    let half := 0.5 / s
    ⟨(mRot.m10 + mRot.m01) * half, 0.5 * s, (mRot.m21 + mRot.m12) * half,
     (mRot.m20 - mRot.m02) * half⟩
  else
    let s := Real.sqrt (1 + mRot.m22 - mRot.m00 - mRot.m11)
    let half := 0.5 / s
    ⟨(mRot.m20 + mRot.m02) * half, (mRot.m21 + mRot.m12) * half, 0.5 * s,
     (mRot.m01 - mRot.m10) * half⟩

/-- `Matrix::GetRotation()` (matrix.cpp lines 751-776): returns the identity
quaternion when any `GetScale()` component is exactly zero; otherwise divides
the three basis rows by the scale components and converts the result with
`RotationMatrixToQuaternion`. -/
noncomputable def Matrix.getRotation (m : Matrix) : Quat :=
  let scale := m.getScale
  if scale.x = 0 ∨ scale.y = 0 ∨ scale.z = 0 then Quat.identity
  else
    let normalized : Matrix :=
      ⟨m.m00 / scale.x, m.m01 / scale.x, m.m02 / scale.x, 0,
       m.m10 / scale.y, m.m11 / scale.y, m.m12 / scale.y, 0,
       m.m20 / scale.z, m.m21 / scale.z, m.m22 / scale.z, 0,
       0, 0, 0, 1⟩
    Matrix.rotationMatrixToQuaternion normalized

/-- Quaternion dot product, `w*w' + x*x' + y*y' + z*z'`, as the spec's SLERP
description uses it. -/
def Quat.dotQ (a b : Quat) : ℝ := a.w * b.w + a.x * b.x + a.y * b.y + a.z * b.z

/-- Component-wise negation — the other representative of the double cover. -/
def Quat.negQ (q : Quat) : Quat := ⟨-q.x, -q.y, -q.z, -q.w⟩

/-- Component-wise linear interpolation of quaternions. -/
def Quat.lerpQ (a b : Quat) (t : ℝ) : Quat :=
  ⟨a.x + t * (b.x - a.x), a.y + t * (b.y - a.y), a.z + t * (b.z - a.z),
   a.w + t * (b.w - a.w)⟩

/-- Reference definition following the spec's words for C3: SLERP first
normalizes both inputs, negates the second operand when the dot product is
negative (double-cover correction), clamps the dot product to `[-1,1]` before
`acos`, and returns the renormalized linear interpolation instead of the
sine-ratio formula whenever `1 - dot < 1e-3`. -/
noncomputable def Quat.slerpSpec (qfrom qto : Quat) (t : ℝ) : Quat :=
  let a := qfrom.getNormalized
  let b0 := qto.getNormalized
  let b := if Quat.dotQ a b0 < 0 then b0.negQ else b0
  let dot := clampR (Quat.dotQ a b) (-1) 1
  if 1 - dot < 1e-3 then (Quat.lerpQ a b t).getNormalized
  else
    let theta0 := Real.arccos dot
    let theta := theta0 * t
    let s0 := Real.cos theta - dot * Real.sin theta / Real.sin theta0
    let s1 := Real.sin theta / Real.sin theta0
    ⟨s0 * a.x + s1 * b.x, s0 * a.y + s1 * b.y, s0 * a.z + s1 * b.z,
     s0 * a.w + s1 * b.w⟩

/-! ## Theorems -/

/-- C2.  The spec claims the `Mat4` copy constructor yields a copy with the
same 16 entries that compares equal to the original.  The code's copy
constructor (mat4.cpp lines 80-82) has an empty body, so the "copy" is the
all-zero matrix: copying `Translate(1,2,3)` yields `Zero`, which does not
compare equal to `Translate(1,2,3)`. -/
theorem mat4_copy_ctor_returns_zero_not_copy :
    Mat4.copyCtor (Mat4.translate ⟨1, 2, 3⟩) = Mat4.zeroM ∧
    Mat4.copyCtor (Mat4.translate ⟨1, 2, 3⟩) ≠ Mat4.translate ⟨1, 2, 3⟩ := by
  constructor
  · rfl
  · intro h
    have hx := congrArg (fun m => m.r0.w) h
    simp only [Mat4.copyCtor, Mat4.translate, Vec4.default] at hx
    norm_num at hx

/-- C1.  The spec claims `Decompose(Compose(T,R,S))` succeeds for
non-degenerate TRS.  Because `Decompose` begins with
`Mat4 LocalMatrix(transform)` and the `Mat4` copy constructor's body is empty,
`LocalMatrix` is the all-zero matrix, its `[3][3]` entry is within epsilon of
`0`, and `Decompose` returns `false` (here: `none`) for every input — in
particular for every composed TRS matrix. -/
theorem decompose_compose_always_fails (t : Vec3) (r : Quat) (s : Vec3) :
    Transforms.decompose (Transforms.compose t r s) = none := by
  have h : epsilonEqual (Mat4.copyCtor (Transforms.compose t r s)).r3.w 0 flEpsilon := by
    show |(0 : ℝ) - 0| < flEpsilon
    rw [sub_zero, abs_zero, flEpsilon]
    positivity
  simp only [Transforms.decompose]
  rw [if_pos h]

/-- C8.  `PerspectiveProjection(16/9, 60, 0.1, 1000)` has
`P[0][0] = 1/((16/9)·tan(30°))`, `P[1][1] = -1/tan(30°)` (Y flipped
negative), `P[3][2] = 1` and `P[3][3] = 0` — bottom row `(0,0,1,0)`. -/
theorem perspectiveProjection_structure :
    (Mat4.perspectiveProjection (16 / 9) 60 0.1 1000).r0.x
        = 1 / ((16 / 9) * Real.tan (30 * (Real.pi / 180))) ∧
    (Mat4.perspectiveProjection (16 / 9) 60 0.1 1000).r1.y
        = -(1 / Real.tan (30 * (Real.pi / 180))) ∧
    (Mat4.perspectiveProjection (16 / 9) 60 0.1 1000).r3.z = 1 ∧
    (Mat4.perspectiveProjection (16 / 9) 60 0.1 1000).r3.w = 0 := by
  have h : toRadians (60 / 2) = 30 * (Real.pi / 180) := by
    unfold toRadians; norm_num
  refine ⟨?_, ?_, rfl, rfl⟩ <;> simp only [Mat4.perspectiveProjection, h]
  rw [neg_div, one_div]

/-- C10.  For every legacy `Matrix` whose `GetScale()` has a component exactly
equal to `0`, `GetRotation()` returns the identity quaternion instead of
dividing the basis rows by the zero scale. -/
theorem getRotation_identity_on_zero_scale (m : Matrix)
    (h : m.getScale.x = 0 ∨ m.getScale.y = 0 ∨ m.getScale.z = 0) :
    m.getRotation = Quat.identity := by
  simp only [Matrix.getRotation]
  rw [if_pos h]

/-- C10 witness: the all-zero matrix has `GetScale() = (0,0,0)`, and
`GetRotation()` is the identity quaternion on it. -/
theorem getRotation_identity_on_zero_scale_witness :
    ((Matrix.mk 0 0 0 0 0 0 0 0 0 0 0 0 0 0 0 0).getScale.x = 0 ∨
     (Matrix.mk 0 0 0 0 0 0 0 0 0 0 0 0 0 0 0 0).getScale.y = 0 ∨
     (Matrix.mk 0 0 0 0 0 0 0 0 0 0 0 0 0 0 0 0).getScale.z = 0) ∧
    (Matrix.mk 0 0 0 0 0 0 0 0 0 0 0 0 0 0 0 0).getRotation = Quat.identity := by
  have h : (Matrix.mk 0 0 0 0 0 0 0 0 0 0 0 0 0 0 0 0).getScale.x = 0 ∨
      (Matrix.mk 0 0 0 0 0 0 0 0 0 0 0 0 0 0 0 0).getScale.y = 0 ∨
      (Matrix.mk 0 0 0 0 0 0 0 0 0 0 0 0 0 0 0 0).getScale.z = 0 := by
    left
    simp [Matrix.getScale, signR]
  exact ⟨h, getRotation_identity_on_zero_scale _ h⟩

/-- C5.  A quaternion with non-positive squared magnitude (over the reals:
the zero quaternion) is sent to the identity by the guarded `GetNormalized()`,
while the unguarded in-place `Normalize()` divides all four components by the
zero magnitude, producing `NaN` in every component (modelled by `none`). -/
theorem getNormalized_guard_normalize_unguarded (q : Quat)
    (h : q.sqrMagnitude ≤ 0) :
    q.getNormalized = Quat.identity ∧ q.normalizeInPlace = none := by
  have h2 : q.w * q.w + q.x * q.x + q.y * q.y + q.z * q.z ≤ 0 := by
    unfold Quat.sqrMagnitude at h; linarith
  have h2' : q.w * q.w + q.x * q.x + q.y * q.y + q.z * q.z = 0 := by
    have : 0 ≤ q.w * q.w + q.x * q.x + q.y * q.y + q.z * q.z := by
      linarith [mul_self_nonneg q.w, mul_self_nonneg q.x, mul_self_nonneg q.y,
        mul_self_nonneg q.z]
    linarith
  constructor
  · simp only [Quat.getNormalized]
    rw [if_pos h2]
  · simp only [Quat.normalizeInPlace]
    rw [if_pos (by rw [h2', Real.sqrt_zero])]

/-- C5 witness: the zero quaternion. -/
theorem getNormalized_guard_normalize_unguarded_witness :
    (Quat.mk 0 0 0 0).sqrMagnitude ≤ 0 ∧
    ((Quat.mk 0 0 0 0).getNormalized = Quat.identity ∧
     (Quat.mk 0 0 0 0).normalizeInPlace = none) := by
  have h : (Quat.mk 0 0 0 0).sqrMagnitude ≤ 0 := by
    simp [Quat.sqrMagnitude]
  exact ⟨h, getNormalized_guard_normalize_unguarded _ h⟩

/-- C6.  The legacy `Matrix::operator*(Vec3)` computes the full homogeneous
product (the same one its `operator*(Vec4)` computes at `w=1`) and divides
`x, y, z` by the resulting `w` whenever `w ≠ 1`; `Mat4::operator*(Vec3)`
promotes to `Vec4` with `w = 1` and returns the raw product, with no
perspective division. -/
theorem matrix_vec3_perspective_divide_mat4_not (m : Matrix) (v : Vec3) (n : Mat4) :
    (Matrix.mulVec3 m v =
      (let p := Matrix.mulVec4 m (Vec4.ofVec3 v 1)
       if p.w ≠ 1 then ⟨p.x / p.w, p.y / p.w, p.z / p.w⟩ else ⟨p.x, p.y, p.z⟩)) ∧
    Mat4.mulVec3 n v = Mat4.mulVec4 n (Vec4.ofVec3 v 1) := by
  refine ⟨?_, rfl⟩
  simp only [Matrix.mulVec3, Matrix.mulVec4, Vec4.ofVec3]
  have hx : v.x * m.m00 + v.y * m.m10 + v.z * m.m20 + 1 * m.m30
      = v.x * m.m00 + v.y * m.m10 + v.z * m.m20 + m.m30 := by ring
  have hy : v.x * m.m01 + v.y * m.m11 + v.z * m.m21 + 1 * m.m31
      = v.x * m.m01 + v.y * m.m11 + v.z * m.m21 + m.m31 := by ring
  have hz : v.x * m.m02 + v.y * m.m12 + v.z * m.m22 + 1 * m.m32
      = v.x * m.m02 + v.y * m.m12 + v.z * m.m22 + m.m32 := by ring
  have hw : v.x * m.m03 + v.y * m.m13 + v.z * m.m23 + 1 * m.m33
      = v.x * m.m03 + v.y * m.m13 + v.z * m.m23 + m.m33 := by ring
  rw [hx, hy, hz, hw]

/-- Helper: the closed-form inverse is `none` (all entries non-finite) as soon
as the source's determinant expression vanishes. -/
theorem Mat4.getInverse_eq_none_of_invDet_zero (m : Mat4) (h : m.invDet = 0) :
    m.getInverse = none := by
  simp only [Mat4.getInverse]
  rw [if_pos h]

/-- Helper: the determinant expression of `Mat4::GetInverse` vanishes on any
matrix with two identical rows. -/
theorem Mat4.invDet_zero_of_dup_row (m : Mat4) (i j : Fin 4) (hij : i ≠ j)
    (he : m.row i = m.row j) : m.invDet = 0 := by
  cases m with
  | mk r0 r1 r2 r3 =>
    fin_cases i <;> fin_cases j <;>
      simp only [Mat4.row] at he <;>
      first
        | exact absurd rfl hij
        | (subst he; simp only [Mat4.invDet]; ring)

/-- C7.  For every `Mat4` with a duplicated row (hence determinant `0`),
`GetInverse()` divides by the zero determinant, so its entries are non-finite
(`inf` or `NaN`, modelled by `none`); there is no exception and no
singularity check before the division. -/
theorem getInverse_nonfinite_on_dup_row (m : Mat4) (i j : Fin 4) (hij : i ≠ j)
    (he : m.row i = m.row j) : m.getInverse = none :=
  Mat4.getInverse_eq_none_of_invDet_zero m (Mat4.invDet_zero_of_dup_row m i j hij he)

/-- C7 witness: a concrete matrix whose first two rows coincide. -/
theorem getInverse_nonfinite_on_dup_row_witness :
    (((0 : Fin 4) ≠ 1) ∧
      (Mat4.mk ⟨1, 2, 3, 4⟩ ⟨1, 2, 3, 4⟩ ⟨5, 6, 7, 8⟩ ⟨9, 10, 11, 12⟩).row 0 =
        (Mat4.mk ⟨1, 2, 3, 4⟩ ⟨1, 2, 3, 4⟩ ⟨5, 6, 7, 8⟩ ⟨9, 10, 11, 12⟩).row 1) ∧
    (Mat4.mk ⟨1, 2, 3, 4⟩ ⟨1, 2, 3, 4⟩ ⟨5, 6, 7, 8⟩ ⟨9, 10, 11, 12⟩).getInverse = none :=
  ⟨⟨by decide, rfl⟩,
    getInverse_nonfinite_on_dup_row
      (Mat4.mk ⟨1, 2, 3, 4⟩ ⟨1, 2, 3, 4⟩ ⟨5, 6, 7, 8⟩ ⟨9, 10, 11, 12⟩) 0 1 (by decide) rfl⟩

/-- C4.  At the gimbal-lock poles, detected by
`|x·y + z·w| > 0.499·(x²+y²+z²+w²)`, `ToEulerRadians` returns the
degenerate-but-defined value: pitch `±π/2` according to the sign of the test
value, yaw `2·atan2(x,w)` (negated at the south pole), roll `0`. -/
theorem toEulerRadians_pole (q : Quat)
    (h : |q.x * q.y + q.z * q.w| >
      0.499 * (q.x * q.x + q.y * q.y + q.z * q.z + q.w * q.w)) :
    q.toEulerRadians =
      if 0 ≤ q.x * q.y + q.z * q.w then
        ⟨Real.pi / 2, 2 * atan2 q.x q.w, 0⟩
      else
        ⟨-(Real.pi / 2), -2 * atan2 q.x q.w, 0⟩ := by
  have hunit : 0 ≤ q.x * q.x + q.y * q.y + q.z * q.z + q.w * q.w := by
    linarith [mul_self_nonneg q.x, mul_self_nonneg q.y, mul_self_nonneg q.z,
      mul_self_nonneg q.w]
  by_cases hs : 0 ≤ q.x * q.y + q.z * q.w
  · have habs : |q.x * q.y + q.z * q.w| = q.x * q.y + q.z * q.w := abs_of_nonneg hs
    rw [habs] at h
    simp only [Quat.toEulerRadians]
    rw [if_pos (by nlinarith), if_pos hs]
  · push_neg at hs
    have habs : |q.x * q.y + q.z * q.w| = -(q.x * q.y + q.z * q.w) := abs_of_neg hs
    rw [habs] at h
    simp only [Quat.toEulerRadians]
    rw [if_neg (by nlinarith), if_pos (by nlinarith), if_neg (not_le.mpr hs)]

/-- C4 witness: `q = (1,1,0,0)` satisfies the pole test
(`|1| > 0.499 · 2`). -/
theorem toEulerRadians_pole_witness :
    (|(1 : ℝ) * 1 + 0 * 0| > 0.499 * (1 * 1 + 1 * 1 + 0 * 0 + 0 * 0)) ∧
    (Quat.mk 1 1 0 0).toEulerRadians =
      (if 0 ≤ (1 : ℝ) * 1 + 0 * 0 then
        ⟨Real.pi / 2, 2 * atan2 (Quat.mk 1 1 0 0).x (Quat.mk 1 1 0 0).w, 0⟩
      else
        ⟨-(Real.pi / 2), -2 * atan2 (Quat.mk 1 1 0 0).x (Quat.mk 1 1 0 0).w, 0⟩) :=
  ⟨by norm_num, toEulerRadians_pole (Quat.mk 1 1 0 0) (by norm_num)⟩

/-- C3.  `Quat::Slerp` agrees with the spec's description (`slerpSpec`): it
normalizes both inputs, negates the second operand when the dot product is
negative, clamps the dot to `[-1,1]` before `acos`, and falls back to the
renormalized linear interpolation whenever `1 - dot < 1e-3`. -/
theorem slerp_refines_spec (qf qt : Quat) (t : ℝ) :
    Quat.slerp qf qt t = Quat.slerpSpec qf qt t := by
  simp only [Quat.slerp, Quat.slerpSpec, Quat.dotQ, Quat.negQ, Quat.lerpQ, Quat.ofWXYZ]
  set a := qf.getNormalized
  set b0 := qt.getNormalized
  by_cases h : a.w * b0.w + a.x * b0.x + a.y * b0.y + a.z * b0.z < 0
  · simp only [if_pos h]
    have hdot : a.w * -b0.w + a.x * -b0.x + a.y * -b0.y + a.z * -b0.z
        = -(a.w * b0.w + a.x * b0.x + a.y * b0.y + a.z * b0.z) := by ring
    rw [hdot]
  · simp only [if_neg h]

/-- Helper: the dot product of the normalizations of `v` and `-v` is exactly
`-1` when `v` is non-degenerate. -/
theorem dotV_normalize_antiparallel (v : Vec3)
    (hv : ¬(v.x * v.x + v.y * v.y + v.z * v.z ≤ 0)) :
    dotV (normalizeV v) (normalizeV (Vec3.neg v)) = -1 := by
  have hL : 0 < v.x * v.x + v.y * v.y + v.z * v.z := not_le.mp hv
  have hneg : -v.x * -v.x + -v.y * -v.y + -v.z * -v.z
      = v.x * v.x + v.y * v.y + v.z * v.z := by ring
  simp only [normalizeV, Vec3.neg, hneg]
  rw [if_neg hv, if_neg hv]
  simp only [dotV]
  have hs : Real.sqrt (v.x * v.x + v.y * v.y + v.z * v.z) *
      Real.sqrt (v.x * v.x + v.y * v.y + v.z * v.z)
      = v.x * v.x + v.y * v.y + v.z * v.z :=
    Real.mul_self_sqrt hL.le
  have hsne : Real.sqrt (v.x * v.x + v.y * v.y + v.z * v.z) ≠ 0 := by
    intro h0
    rw [h0, mul_zero] at hs
    exact absurd hs.symm hL.ne'
  field_simp
  nlinarith [hs]

/-- Helper: a quaternion produced by `AngleAxis(180, axis)` has `w =
cos(180 · 0.0174532925 · 0.5)`, whose rotation angle lies strictly between
`179°` and `181°` (in radians). -/
theorem angleRadians_angleAxis_180 (axis : Vec4) :
    179 * (Real.pi / 180) < Quat.angleRadians (Quat.angleAxis 180 axis) ∧
    Quat.angleRadians (Quat.angleAxis 180 axis) < 181 * (Real.pi / 180) := by
  simp only [Quat.angleAxis, Quat.angleRadians, Quat.ofWXYZ]
  have ha : (180 : ℝ) * 0.0174532925 * 0.5 = 1.570796325 := by norm_num
  rw [ha]
  rw [min_eq_right (Real.cos_le_one _), max_eq_right (Real.neg_one_le_cos _)]
  rw [Real.arccos_cos (by norm_num) (by nlinarith [Real.pi_gt_d6])]
  constructor <;> nlinarith [Real.pi_gt_d6, Real.pi_lt_d6]

/-- C9.  For every nonzero `v`, `FromToRotation(v, -v)` takes the antiparallel
branch (the normalized dot product is exactly `-1` over the reals) and returns
a 180° rotation about an axis orthogonal to `v`; its rotation angle is
strictly between `179°` and `181°`. -/
theorem fromToRotation_antiparallel_angle (v : Vec3) (hv : v ≠ ⟨0, 0, 0⟩) :
    179 * (Real.pi / 180) < Quat.angleRadians (Quat.fromToRotation v (Vec3.neg v)) ∧
    Quat.angleRadians (Quat.fromToRotation v (Vec3.neg v)) < 181 * (Real.pi / 180) := by
  have hL : 0 < v.x * v.x + v.y * v.y + v.z * v.z := by
    rcases lt_trichotomy (v.x * v.x + v.y * v.y + v.z * v.z) 0 with h | h | h
    · nlinarith [mul_self_nonneg v.x, mul_self_nonneg v.y, mul_self_nonneg v.z]
    · exfalso
      apply hv
      have hx : v.x = 0 := by
        have : v.x * v.x = 0 :=
          le_antisymm (by nlinarith [mul_self_nonneg v.y, mul_self_nonneg v.z])
            (mul_self_nonneg v.x)
        exact mul_self_eq_zero.mp this
      have hy : v.y = 0 := by
        have : v.y * v.y = 0 :=
          le_antisymm (by nlinarith [mul_self_nonneg v.x, mul_self_nonneg v.z])
            (mul_self_nonneg v.y)
        exact mul_self_eq_zero.mp this
      have hz : v.z = 0 := by
        have : v.z * v.z = 0 :=
          le_antisymm (by nlinarith [mul_self_nonneg v.x, mul_self_nonneg v.y])
            (mul_self_nonneg v.z)
        exact mul_self_eq_zero.mp this
      cases v
      simp_all
    · exact h
  have hv2 : ¬(v.x * v.x + v.y * v.y + v.z * v.z ≤ 0) := not_le.mpr hL
  simp only [Quat.fromToRotation]
  rw [dotV_normalize_antiparallel v hv2]
  rw [if_neg (by norm_num : ¬((-1 : ℝ) ≥ 1)), if_pos (le_refl (-1 : ℝ))]
  exact angleRadians_angleAxis_180 _

/-- C9 witness: `v = (1, 0, 0)`. -/
theorem fromToRotation_antiparallel_angle_witness :
    ((⟨1, 0, 0⟩ : Vec3) ≠ ⟨0, 0, 0⟩) ∧
    (179 * (Real.pi / 180) <
        Quat.angleRadians (Quat.fromToRotation ⟨1, 0, 0⟩ (Vec3.neg ⟨1, 0, 0⟩)) ∧
      Quat.angleRadians (Quat.fromToRotation ⟨1, 0, 0⟩ (Vec3.neg ⟨1, 0, 0⟩)) <
        181 * (Real.pi / 180)) :=
  ⟨by simp [Vec3.mk.injEq], fromToRotation_antiparallel_angle ⟨1, 0, 0⟩ (by simp [Vec3.mk.injEq])⟩

end xMath
